import Mathlib

/-!
Shallow embedding of the Solana bridge program
(`smart-contracts-solana/bridge/programs/bridge/src/lib.rs`).

Machine integers are modelled as `Nat` with explicit truncation `% 2 ^ 64`
where the source performs an `as u64` cast or an unchecked `u64` addition
(release-profile wrapping semantics).  Public keys are modelled as `Nat`
(`0` is `Pubkey::default()`).  Each instruction is a pure function from its
account inputs to `Except TxError outputs`; an `Except.error` result models
the host ledger rolling back the whole transaction, so an error leaves every
account unchanged.  Anchor's program-derived-address comparisons
(`seeds = [...], bump = ...`) are abstracted by boolean oracle parameters
(`configPda`, `statePda`): the host compares `create_program_address` of the
seeds and the given bump against the account's actual address, and the model
only needs to know whether that comparison succeeds for a given bump value.
-/

namespace Bridge

/-- Truncation performed by the source's `as u64` cast, and by the wrapping
of the unchecked `u64` addition. -/
def u64cast (x : Nat) : Nat := x % 2 ^ 64

/-- The source's `u128::checked_mul`: `some` of the product when it fits in
128 bits, `none` on overflow. -/
def u128CheckedMul (a b : Nat) : Option Nat :=
  if a * b < 2 ^ 128 then some (a * b) else none

/-- The source's `u128::checked_div`: `none` only on a zero divisor. -/
def u128CheckedDiv (a b : Nat) : Option Nat :=
  if b = 0 then none else some (a / b)

/-- The source's `u64::checked_sub`: `none` on underflow. -/
def u64CheckedSub (a b : Nat) : Option Nat :=
  if b ≤ a then some (a - b) else none

/-- Error codes declared by the program (`#[error_code] pub enum BridgeError`,
lib.rs lines 438-458). -/
inductive BridgeError where
  | BridgePaused
  | OnlyOwner
  | OnlyOffchainProcessor
  | FeeTooHigh
  | FeeExceedsAmount
  | InvalidMint
  | InvalidOwner
  | InvalidAddress
  | InvalidDestination
  deriving DecidableEq

/-- Variant name of each declared error code. -/
def bridgeErrorName : BridgeError → String
  | .BridgePaused => "BridgePaused"
  | .OnlyOwner => "OnlyOwner"
  | .OnlyOffchainProcessor => "OnlyOffchainProcessor"
  | .FeeTooHigh => "FeeTooHigh"
  | .FeeExceedsAmount => "FeeExceedsAmount"
  | .InvalidMint => "InvalidMint"
  | .InvalidOwner => "InvalidOwner"
  | .InvalidAddress => "InvalidAddress"
  | .InvalidDestination => "InvalidDestination"

/-- Every constructor of the program's error enum, in declaration order. -/
def allBridgeErrors : List BridgeError :=
  [.BridgePaused, .OnlyOwner, .OnlyOffchainProcessor, .FeeTooHigh,
   .FeeExceedsAmount, .InvalidMint, .InvalidOwner, .InvalidAddress,
   .InvalidDestination]

/-- Ways one instruction of the program can fail: a declared program error
code, a failure raised by the host runtime or the external SPL token program,
or a Rust panic (`unwrap()` on `None`). -/
inductive TxError where
  | bridge : BridgeError → TxError
  | accountAlreadyInUse : TxError
  | accountNotInitialized : TxError
  | constraintSeeds : TxError
  | accountDidNotSerialize : TxError
  | tokenInsufficientFunds : TxError
  | panicked : TxError
  deriving DecidableEq

/-- Whether an instruction result is a success. -/
def txOk {α : Type} : Except TxError α → Bool
  | .ok _ => true
  | .error _ => false

/-- `GlobalConfig` account (lib.rs lines 386-396).  Integer fields carry the
source types in comments; public keys are `Nat`. -/
structure GlobalConfig where
  token_mint : Nat
  authority : Nat
  fee_recipient : Nat
  transfer_fee_basis_points : Nat -- u16
  operation_fee : Nat -- u64
  offchain_processor : Nat
  paused : Bool
  bump : Nat -- u8
  deriving DecidableEq

/-- `BridgeStatus` (lib.rs lines 420-425). -/
inductive BridgeStatus where
  | Pending
  | Completed
  | Failed
  deriving DecidableEq

/-- `BridgeState` account, one per bridge request (lib.rs lines 410-418). -/
structure BridgeState where
  user : Nat
  amount : Nat -- u64
  destination_chain : String
  destination_address : String
  status : BridgeStatus
  bump : Nat -- u8
  deriving DecidableEq

/-- `BridgeState::MAX_DESTINATION_LEN` (lib.rs line 428). -/
def BridgeState.MAX_DESTINATION_LEN : Nat := 64

/-- `BridgeState::LEN`, the byte space allocated for a request account
(lib.rs lines 429-435). -/
def BridgeState.LEN : Nat :=
  8 + 32 + 8 + (4 + BridgeState.MAX_DESTINATION_LEN) + (4 + 42) + 1 + 1

/-- Bytes written when Anchor serializes a `BridgeState` record at
instruction exit: discriminator, pubkey, u64, two length-prefixed strings
(Rust `String::len` counts UTF-8 bytes), status tag and bump. -/
def BridgeState.serializedSize (s : BridgeState) : Nat :=
  8 + 32 + 8 + (4 + s.destination_chain.utf8ByteSize)
    + (4 + s.destination_address.utf8ByteSize) + 1 + 1

/-- Key of a request record: the seed tuple
(user, destination_chain, destination_address) of the `bridge_state` PDA. -/
abbrev ReqKey := Nat × String × String

/-- The store of `BridgeState` accounts, keyed by their PDA seed tuple. -/
abbrev RequestMap := List (ReqKey × BridgeState)

/-- Look up the request record stored at a key, if any. -/
def lookupReq (m : RequestMap) (k : ReqKey) : Option BridgeState :=
  match m with
  | [] => none
  | (k2, s) :: rest => if k2 = k then some s else lookupReq rest k

/-- An SPL token account: its mint, its owner, and its `u64` balance. -/
structure TokenAccount where
  mint : Nat
  owner : Nat
  amount : Nat -- u64
  deriving DecidableEq

/-- SPL token `transfer` (external primitive, assumed correct): moves
`amount` between two accounts, failing when the source balance is too small. -/
def splTransfer (source dest : TokenAccount) (amount : Nat) :
    Except TxError (TokenAccount × TokenAccount) :=
  if source.amount < amount then .error .tokenInsufficientFunds
  else .ok ({ source with amount := source.amount - amount },
            { dest with amount := dest.amount + amount })

/-- SPL token `burn` (external primitive, assumed correct). -/
def splBurn (source : TokenAccount) (amount : Nat) : Except TxError TokenAccount :=
  if source.amount < amount then .error .tokenInsufficientFunds
  else .ok { source with amount := source.amount - amount }

/-- SPL token `mint_to` (external primitive, assumed correct). -/
def splMintTo (dest : TokenAccount) (amount : Nat) : TokenAccount :=
  { dest with amount := dest.amount + amount }

/-- `BridgeStartedEvent` (lib.rs lines 460-467). -/
structure BridgeStartedEvent where
  user : Nat
  amount : Nat
  amount_after_fee : Nat
  destination_chain : String
  destination_address : String
  deriving DecidableEq

/-- `AssetMintedEvent` (lib.rs lines 469-473). -/
structure AssetMintedEvent where
  recipient : Nat
  amount : Nat
  deriving DecidableEq

/-- Fee computation of `receive_asset` (lib.rs lines 46-51):
`(amount as u128).checked_mul(bps as u128).unwrap().checked_div(10000).unwrap()
as u64 + operation_fee`.  `none` models the panic of an `unwrap()` on a failed
checked operation.  The final `+ operation_fee` is an unchecked `u64`
addition, which wraps modulo `2 ^ 64` under release-profile semantics. -/
def feeAmount (amount bps opFee : Nat) : Option Nat :=
  (u128CheckedMul amount bps).bind fun p =>
    (u128CheckedDiv p 10000).map fun q => u64cast (u64cast q + opFee)

/-- `initialize` (lib.rs lines 10-29).  `alreadyInitialized` reflects the
`init` constraint on the `global_config` PDA: creation fails when an account
already exists there.  The handler assigns every field except `bump`, which
keeps the zero-initialized default, and then validates the fee bound; an
error rolls the whole transaction back, so nothing is persisted. -/
def initializeBridge (alreadyInitialized : Bool)
    (tokenMint authority feeRecipient offchainProcessor : Nat)
    (transfer_fee_basis_points operation_fee : Nat) :
    Except TxError GlobalConfig :=
  if alreadyInitialized then .error .accountAlreadyInUse
  else
    let config : GlobalConfig :=
      { token_mint := tokenMint, authority := authority,
        fee_recipient := feeRecipient,
        transfer_fee_basis_points := transfer_fee_basis_points,
        operation_fee := operation_fee,
        offchain_processor := offchainProcessor,
        paused := false, bump := 0 }
    if transfer_fee_basis_points ≤ 1000 then .ok config
    else .error (.bridge .FeeTooHigh)

/-- Successful outputs of `receive_asset`: the request store with the new
record, the two mutated token accounts, and the emitted event. -/
structure DepositOk where
  requests : RequestMap
  userTokenAccount : TokenAccount
  bridgeTokenAccount : TokenAccount
  event : BridgeStartedEvent
  deriving DecidableEq

/-- `receive_asset` (lib.rs lines 31-103) together with its `ReceiveAsset`
account validation (lib.rs lines 234-282), evaluated in source order:
the config PDA seeds/bump comparison (`configPda config.bump`), the
`!global_config.paused` constraint, `init` of the `bridge_state` PDA keyed by
(user, destination_chain, destination_address) which fails when a record
already exists there, the mint and custody-owner constraints, then the
handler body: destination length check, fee computation, fee-versus-amount
check, record field assignment (the five fields of lib.rs lines 58-62;
`bump` keeps its zero-initialized default), transfer of the full amount into
custody, burn of the amount after fee, event emission.  Anchor serializes
the record into its `BridgeState::LEN`-byte allocation at instruction exit;
an oversized record makes that write fail. -/
def receive_asset (config : GlobalConfig) (configPda : Nat → Bool)
    (configKey : Nat) (requests : RequestMap)
    (user : Nat) (userTokenAccount bridgeTokenAccount : TokenAccount)
    (tokenMintKey : Nat) (amount : Nat)
    (destination_chain destination_address : String) :
    Except TxError DepositOk :=
  if configPda config.bump then
    if config.paused then .error (.bridge .BridgePaused)
    else if (lookupReq requests (user, destination_chain, destination_address)).isSome then
      .error .accountAlreadyInUse
    else if tokenMintKey = config.token_mint then
      if userTokenAccount.mint = config.token_mint then
        if bridgeTokenAccount.mint = config.token_mint then
          if bridgeTokenAccount.owner = configKey then
            if destination_chain.utf8ByteSize ≤ BridgeState.MAX_DESTINATION_LEN then
              match feeAmount amount config.transfer_fee_basis_points config.operation_fee with
              | none => .error .panicked
              | some fee_amount =>
                if fee_amount < amount then
                  match u64CheckedSub amount fee_amount with
                  | none => .error .panicked
                  | some amount_after_fee =>
                    let record : BridgeState :=
                      { user := user, amount := amount,
                        destination_chain := destination_chain,
                        destination_address := destination_address,
                        status := .Pending, bump := 0 }
                    match splTransfer userTokenAccount bridgeTokenAccount amount with
                    | .error e => .error e
                    | .ok (userTA2, bridgeTA2) =>
                      match splBurn bridgeTA2 amount_after_fee with
                      | .error e => .error e
                      | .ok bridgeTA3 =>
                        if record.serializedSize ≤ BridgeState.LEN then
                          .ok { requests :=
                                  ((user, destination_chain, destination_address), record)
                                    :: requests,
                                userTokenAccount := userTA2,
                                bridgeTokenAccount := bridgeTA3,
                                event :=
                                  { user := user, amount := amount,
                                    amount_after_fee := amount_after_fee,
                                    destination_chain := destination_chain,
                                    destination_address := destination_address } }
                        else .error .accountDidNotSerialize
                else .error (.bridge .FeeExceedsAmount)
            else .error (.bridge .InvalidDestination)
          else .error (.bridge .InvalidOwner)
        else .error (.bridge .InvalidMint)
      else .error (.bridge .InvalidMint)
    else .error (.bridge .InvalidMint)
  else .error .constraintSeeds

/-- Successful outputs of `mint_asset`: the (untouched) request store, the
recipient's token account after minting, and the emitted event. -/
structure MintOk where
  requests : RequestMap
  recipientTokenAccount : TokenAccount
  event : AssetMintedEvent
  deriving DecidableEq

/-- `mint_asset` (lib.rs lines 105-144) with its `MintAsset` account
validation (lib.rs lines 284-326), in source order: config PDA seeds/bump
comparison and `!paused` constraint, deserialization of the `bridge_state`
record at the PDA keyed by (recipient, destination_chain,
destination_address) — an absent record fails, and the seeds are re-verified
with the *stored* `bridge_state.bump` (`statePda` abstracts the host's
address comparison at that bump) — mint constraints, the processor signer
constraint, then the handler's own redundant paused/processor checks and the
`mint_to` call.  The handler never reads or writes the record's fields. -/
def mint_asset (config : GlobalConfig) (configPda : Nat → Bool)
    (statePda : ReqKey → Nat → Bool) (requests : RequestMap)
    (recipient : Nat) (recipientTokenAccount : TokenAccount)
    (tokenMintKey : Nat) (offchainProcessorCaller : Nat) (amount : Nat)
    (destination_chain destination_address : String) :
    Except TxError MintOk :=
  if configPda config.bump then
    if config.paused then .error (.bridge .BridgePaused)
    else
      match lookupReq requests (recipient, destination_chain, destination_address) with
      | none => .error .accountNotInitialized
      | some bridge_state =>
        if statePda (recipient, destination_chain, destination_address) bridge_state.bump then
          if tokenMintKey = config.token_mint then
            if recipientTokenAccount.mint = config.token_mint then
              if offchainProcessorCaller = config.offchain_processor then
                if config.paused then .error (.bridge .BridgePaused)
                else if offchainProcessorCaller = config.offchain_processor then
                  .ok { requests := requests,
                        recipientTokenAccount :=
                          splMintTo recipientTokenAccount amount,
                        event := { recipient := recipient, amount := amount } }
                else .error (.bridge .OnlyOffchainProcessor)
              else .error (.bridge .OnlyOffchainProcessor)
            else .error (.bridge .InvalidMint)
          else .error (.bridge .InvalidMint)
        else .error .constraintSeeds
  else .error .constraintSeeds

/-- `UpdateConfig` account validation (lib.rs lines 328-340): the config PDA
seeds/bump comparison and the owner-only constraint. -/
def updateConfigGuard (config : GlobalConfig) (configPda : Nat → Bool)
    (authority : Nat) : Option TxError :=
  if configPda config.bump then
    if authority = config.authority then none
    else some (.bridge .OnlyOwner)
  else some .constraintSeeds

/-- `update_transfer_fee` (lib.rs lines 146-155). -/
def update_transfer_fee (config : GlobalConfig) (configPda : Nat → Bool)
    (authority : Nat) (new_fee : Nat) : Except TxError GlobalConfig :=
  match updateConfigGuard config configPda authority with
  | some e => .error e
  | none =>
    if new_fee ≤ 1000 then
      .ok { config with transfer_fee_basis_points := new_fee }
    else .error (.bridge .FeeTooHigh)

/-- `update_operation_fee` (lib.rs lines 157-163). -/
def update_operation_fee (config : GlobalConfig) (configPda : Nat → Bool)
    (authority : Nat) (new_fee : Nat) : Except TxError GlobalConfig :=
  match updateConfigGuard config configPda authority with
  | some e => .error e
  | none => .ok { config with operation_fee := new_fee }

/-- `change_offchain_processor` (lib.rs lines 165-173); `0` models
`Pubkey::default()`. -/
def change_offchain_processor (config : GlobalConfig) (configPda : Nat → Bool)
    (authority : Nat) (new_processor : Nat) : Except TxError GlobalConfig :=
  match updateConfigGuard config configPda authority with
  | some e => .error e
  | none =>
    if new_processor ≠ 0 then
      .ok { config with offchain_processor := new_processor }
    else .error (.bridge .InvalidAddress)

/-- `set_paused` (lib.rs lines 199-202). -/
def set_paused (config : GlobalConfig) (configPda : Nat → Bool)
    (authority : Nat) (paused : Bool) : Except TxError GlobalConfig :=
  match updateConfigGuard config configPda authority with
  | some e => .error e
  | none => .ok { config with paused := paused }

/-- Successful outputs of `withdraw_fees`: the custody account and the fee
recipient's account after the sweep. -/
structure WithdrawOk where
  bridgeTokenAccount : TokenAccount
  feeRecipientTokenAccount : TokenAccount
  deriving DecidableEq

/-- `withdraw_fees` (lib.rs lines 175-197) with its `WithdrawFees` account
validation (lib.rs lines 342-369): config PDA and owner-only constraint,
custody account mint/owner constraints, fee recipient account mint/owner
constraints; the handler then transfers the custody account's entire balance
to the fee recipient.  The instruction takes no amount argument. -/
def withdraw_fees (config : GlobalConfig) (configPda : Nat → Bool)
    (configKey authority : Nat)
    (bridgeTokenAccount feeRecipientTokenAccount : TokenAccount) :
    Except TxError WithdrawOk :=
  if configPda config.bump then
    if authority = config.authority then
      if bridgeTokenAccount.mint = config.token_mint then
        if bridgeTokenAccount.owner = configKey then
          if feeRecipientTokenAccount.mint = config.token_mint then
            if feeRecipientTokenAccount.owner = config.fee_recipient then
              match splTransfer bridgeTokenAccount feeRecipientTokenAccount
                  bridgeTokenAccount.amount with
              | .error e => .error e
              | .ok (bta, fta) =>
                .ok { bridgeTokenAccount := bta,
                      feeRecipientTokenAccount := fta }
            else .error (.bridge .InvalidOwner)
          else .error (.bridge .InvalidMint)
        else .error (.bridge .InvalidOwner)
      else .error (.bridge .InvalidMint)
    else .error (.bridge .OnlyOwner)
  else .error .constraintSeeds

/-!
General lemmas about the instruction semantics, shared by the claim
theorems below.
-/

/-- When the true fee `amount * bps / 10000 + opFee` fits in 64 bits, the
fee computation returns exactly that value: the `u128` intermediate cannot
overflow and neither truncation bites. -/
theorem feeAmount_eq_of_no_overflow (amount bps opFee : Nat)
    (h : amount * bps / 10000 + opFee < 2 ^ 64) :
    feeAmount amount bps opFee = some (amount * bps / 10000 + opFee) := by
  have hq : amount * bps / 10000 < 2 ^ 64 :=
    Nat.lt_of_le_of_lt (Nat.le_add_right _ _) h
  have hmul : amount * bps < 340282366920938463463374607431768211456 := by omega
  simp [feeAmount, u128CheckedMul, u128CheckedDiv, u64cast, hmul]
  omega

set_option maxHeartbeats 2000000 in
/-- Inversion of a successful `receive_asset` run: every guard passed, the
fee was strictly below the amount, and the outputs are exactly the new
record (with `bump = 0`), the debited depositor account, the custody account
credited with the full amount and debited by the burn, and the event. -/
theorem receive_asset_ok_elim
    {config : GlobalConfig} {configPda : Nat → Bool} {configKey : Nat}
    {requests : RequestMap} {user : Nat} {uTA bTA : TokenAccount}
    {tmKey amount : Nat} {chain addr : String} {s : DepositOk}
    (hok : receive_asset config configPda configKey requests user uTA bTA
      tmKey amount chain addr = .ok s) :
    configPda config.bump = true ∧ config.paused = false ∧
    lookupReq requests (user, chain, addr) = none ∧
    tmKey = config.token_mint ∧
    ∃ fee,
      feeAmount amount config.transfer_fee_basis_points config.operation_fee
        = some fee ∧
      fee < amount ∧ amount ≤ uTA.amount ∧
      s = { requests := ((user, chain, addr),
              { user := user, amount := amount, destination_chain := chain,
                destination_address := addr, status := .Pending, bump := 0 })
                :: requests,
            userTokenAccount := { uTA with amount := uTA.amount - amount },
            bridgeTokenAccount :=
              { bTA with amount := bTA.amount + amount - (amount - fee) },
            event := { user := user, amount := amount,
                       amount_after_fee := amount - fee,
                       destination_chain := chain,
                       destination_address := addr } } := by
  unfold receive_asset at hok
  split at hok
  case isFalse => exact Except.noConfusion hok
  case isTrue hpda =>
  split at hok
  case isTrue => exact Except.noConfusion hok
  case isFalse hpause =>
  split at hok
  case isTrue => exact Except.noConfusion hok
  case isFalse hfresh =>
  split at hok
  case isFalse => exact Except.noConfusion hok
  case isTrue hmint =>
  split at hok
  case isFalse => exact Except.noConfusion hok
  case isTrue humint =>
  split at hok
  case isFalse => exact Except.noConfusion hok
  case isTrue hbmint =>
  split at hok
  case isFalse => exact Except.noConfusion hok
  case isTrue hbown =>
  split at hok
  case isFalse => exact Except.noConfusion hok
  case isTrue hchain =>
  split at hok
  case h_1 => exact Except.noConfusion hok
  case h_2 fee hfee =>
  split at hok
  case isFalse => exact Except.noConfusion hok
  case isTrue hlt =>
  split at hok
  case h_1 => exact Except.noConfusion hok
  case h_2 a_f hsub =>
  split at hok
  case h_1 => exact Except.noConfusion hok
  case h_2 uTA2 bTA2 htr =>
  split at hok
  case h_1 => exact Except.noConfusion hok
  case h_2 bTA3 hburn =>
  dsimp only at hok
  split at hok
  case isFalse => exact Except.noConfusion hok
  case isTrue hser =>
  unfold u64CheckedSub at hsub
  split at hsub
  case isFalse => exact Option.noConfusion hsub
  case isTrue hle =>
  injection hsub with hsub
  unfold splTransfer at htr
  split at htr
  case isTrue => exact Except.noConfusion htr
  case isFalse hbal =>
  injection htr with htr
  injection htr with htr1 htr2
  unfold splBurn at hburn
  split at hburn
  case isTrue => exact Except.noConfusion hburn
  case isFalse hburnok =>
  injection hburn with hburn
  injection hok with hok
  refine ⟨hpda, by simpa using hpause, by simpa using hfresh, hmint, fee, hfee,
    hlt, Nat.not_lt.mp hbal, ?_⟩
  subst hok
  subst htr1
  subst htr2
  subst hburn
  subst hsub
  rfl

/-- Forward run of `receive_asset`: when every guard condition holds and the
computed fee is strictly below the amount, the deposit succeeds with exactly
these outputs. -/
theorem receive_asset_eq_ok
    (config : GlobalConfig) (configPda : Nat → Bool) (configKey : Nat)
    (requests : RequestMap) (user : Nat) (uTA bTA : TokenAccount)
    (tmKey amount : Nat) (chain addr : String) (fee : Nat)
    (hpda : configPda config.bump = true) (hpause : config.paused = false)
    (hfresh : lookupReq requests (user, chain, addr) = none)
    (hmint : tmKey = config.token_mint)
    (humint : uTA.mint = config.token_mint)
    (hbmint : bTA.mint = config.token_mint) (hbown : bTA.owner = configKey)
    (hchain : chain.utf8ByteSize ≤ 64)
    (haddr : chain.utf8ByteSize + addr.utf8ByteSize ≤ 106)
    (hbal : amount ≤ uTA.amount)
    (hfee : feeAmount amount config.transfer_fee_basis_points
      config.operation_fee = some fee)
    (hlt : fee < amount) :
    receive_asset config configPda configKey requests user uTA bTA tmKey
        amount chain addr
      = .ok { requests := ((user, chain, addr),
                { user := user, amount := amount, destination_chain := chain,
                  destination_address := addr, status := .Pending,
                  bump := 0 }) :: requests,
              userTokenAccount := { uTA with amount := uTA.amount - amount },
              bridgeTokenAccount :=
                { bTA with amount := bTA.amount + amount - (amount - fee) },
              event := { user := user, amount := amount,
                         amount_after_fee := amount - fee,
                         destination_chain := chain,
                         destination_address := addr } } := by
  have hle : fee ≤ amount := Nat.le_of_lt hlt
  have hnotlt : ¬ uTA.amount < amount := Nat.not_lt.mpr hbal
  have hburn : ¬ bTA.amount + amount < amount - fee := by omega
  have hser : 8 + 32 + 8 + (4 + chain.utf8ByteSize) + (4 + addr.utf8ByteSize)
      + 1 + 1 ≤ 8 + 32 + 8 + (4 + 64) + (4 + 42) + 1 + 1 := by omega
  simp only [receive_asset, hpda, hpause, hfresh, hmint, humint, hbmint,
    hbown, hfee, BridgeState.MAX_DESTINATION_LEN, hchain, u64CheckedSub, hle,
    splTransfer, hnotlt, splBurn, hburn, BridgeState.serializedSize,
    BridgeState.LEN, hser, Option.isSome_none, Bool.false_eq_true, if_true,
    if_false, ite_true, ite_false, if_pos, hlt]

/-- Inversion of a successful `mint_asset` run: every guard passed (in
particular, a record exists at the derived key and the seeds check used its
stored bump), and the only outputs are the minted recipient balance and the
event; the request store is returned untouched. -/
theorem mint_asset_ok_elim
    {config : GlobalConfig} {configPda : Nat → Bool}
    {statePda : ReqKey → Nat → Bool} {requests : RequestMap}
    {recipient : Nat} {rTA : TokenAccount} {tmKey caller amount : Nat}
    {chain addr : String} {out : MintOk}
    (hok : mint_asset config configPda statePda requests recipient rTA tmKey
      caller amount chain addr = .ok out) :
    configPda config.bump = true ∧ config.paused = false ∧
    ∃ rec, lookupReq requests (recipient, chain, addr) = some rec ∧
      statePda (recipient, chain, addr) rec.bump = true ∧
      tmKey = config.token_mint ∧ rTA.mint = config.token_mint ∧
      caller = config.offchain_processor ∧
      out = { requests := requests,
              recipientTokenAccount := splMintTo rTA amount,
              event := { recipient := recipient, amount := amount } } := by
  unfold mint_asset at hok
  split at hok
  case isFalse => exact Except.noConfusion hok
  case isTrue hpda =>
  split at hok
  case isTrue => exact Except.noConfusion hok
  case isFalse hpause =>
  split at hok
  case h_1 => exact Except.noConfusion hok
  case h_2 rec hrec =>
  split at hok
  case isFalse => exact Except.noConfusion hok
  case isTrue hsp =>
  split at hok
  case isFalse => exact Except.noConfusion hok
  case isTrue hmint =>
  split at hok
  case isFalse => exact Except.noConfusion hok
  case isTrue hrmint =>
  split at hok
  case isFalse => exact Except.noConfusion hok
  case isTrue hproc =>
  injection hok with hok
  exact ⟨hpda, by simpa using hpause, rec, hrec, hsp, hmint, hrmint, hproc,
    hok.symm⟩

/-!
Claim theorems.
-/

/-- C1 (amended): for every valid deposit frame (config PDA matches, bridge
not paused, no record at the derived key, matching mints, custody owned by
the config, destination strings within the serialized bounds, depositor
balance at least `amount`), and provided the true fee
`amount * bps / 10000 + operation_fee` fits in 64 bits so the unchecked u64
addition does not wrap, `receive_asset` computes the fee as
`floor(amount * bps / 10000) + operation_fee` using 128-bit intermediate
arithmetic, succeeds if and only if this fee is strictly less than `amount`
(failing with `FeeExceedsAmount` otherwise), and on success emits
`amount_after_fee = amount - fee`.  Without the no-overflow side condition
the claim is false: see the counterexample. -/
theorem receive_asset_fee_spec
    (config : GlobalConfig) (configPda : Nat → Bool) (configKey : Nat)
    (requests : RequestMap) (user : Nat) (uTA bTA : TokenAccount)
    (tmKey amount : Nat) (chain addr : String)
    (hpda : configPda config.bump = true) (hpause : config.paused = false)
    (hfresh : lookupReq requests (user, chain, addr) = none)
    (hmint : tmKey = config.token_mint)
    (humint : uTA.mint = config.token_mint)
    (hbmint : bTA.mint = config.token_mint) (hbown : bTA.owner = configKey)
    (hchain : chain.utf8ByteSize ≤ 64)
    (haddr : chain.utf8ByteSize + addr.utf8ByteSize ≤ 106)
    (hbal : amount ≤ uTA.amount)
    (hnof : amount * config.transfer_fee_basis_points / 10000
      + config.operation_fee < 2 ^ 64) :
    feeAmount amount config.transfer_fee_basis_points config.operation_fee
      = some (amount * config.transfer_fee_basis_points / 10000
          + config.operation_fee)
    ∧ (txOk (receive_asset config configPda configKey requests user uTA bTA
          tmKey amount chain addr) = true
        ↔ amount * config.transfer_fee_basis_points / 10000
            + config.operation_fee < amount)
    ∧ (∀ s, receive_asset config configPda configKey requests user uTA bTA
          tmKey amount chain addr = .ok s →
        s.event.amount_after_fee
          = amount - (amount * config.transfer_fee_basis_points / 10000
              + config.operation_fee))
    ∧ (¬ amount * config.transfer_fee_basis_points / 10000
          + config.operation_fee < amount →
        receive_asset config configPda configKey requests user uTA bTA tmKey
          amount chain addr = .error (.bridge .FeeExceedsAmount)) := by
  have hfee := feeAmount_eq_of_no_overflow amount
    config.transfer_fee_basis_points config.operation_fee hnof
  refine ⟨hfee, ⟨?_, ?_⟩, ?_, ?_⟩
  · intro hok
    cases hres : receive_asset config configPda configKey requests user uTA
        bTA tmKey amount chain addr with
    | error e => rw [hres] at hok; exact absurd hok (by simp [txOk])
    | ok s =>
      obtain ⟨_, _, _, _, fee, hfee2, hlt, _, _⟩ := receive_asset_ok_elim hres
      rw [hfee] at hfee2
      injection hfee2 with hfe
      rwa [hfe]
  · intro hlt
    rw [receive_asset_eq_ok config configPda configKey requests user uTA bTA
      tmKey amount chain addr _ hpda hpause hfresh hmint humint hbmint hbown
      hchain haddr hbal hfee hlt]
    rfl
  · intro s hs
    obtain ⟨_, _, _, _, fee, hfee2, hlt, _, hsv⟩ := receive_asset_ok_elim hs
    rw [hfee] at hfee2
    injection hfee2 with hfe
    rw [hsv, hfe]
  · intro hge
    simp [receive_asset, hpda, hpause, hfresh, hmint, humint, hbmint, hbown,
      BridgeState.MAX_DESTINATION_LEN, hchain, hfee, hge]

/-- C1 witness at the concrete case of the claim: `amount = 1,000,000`,
`bps = 50`, `operation_fee = 1,000` gives fee `6,000`, the deposit succeeds,
and the emitted amount after fee is `994,000`; the same configuration with
`amount = 500` has fee `1,002 ≥ 500` and fails with `FeeExceedsAmount`. -/
theorem receive_asset_fee_spec_witness :
    feeAmount 1000000 50 1000 = some 6000
    ∧ txOk (receive_asset ⟨1, 2, 3, 50, 1000, 4, false, 0⟩ (fun _ => true) 6
        [] 5 ⟨1, 5, 1000000⟩ ⟨1, 6, 0⟩ 1 1000000 "eth" "0xabc") = true
    ∧ (receive_asset ⟨1, 2, 3, 50, 1000, 4, false, 0⟩ (fun _ => true) 6
        [] 5 ⟨1, 5, 1000000⟩ ⟨1, 6, 0⟩ 1 1000000 "eth" "0xabc").map
        (fun s => s.event.amount_after_fee) = .ok 994000
    ∧ receive_asset ⟨1, 2, 3, 50, 1000, 4, false, 0⟩ (fun _ => true) 6 [] 5
        ⟨1, 5, 500⟩ ⟨1, 6, 0⟩ 1 500 "eth" "0xabc"
        = .error (.bridge .FeeExceedsAmount) := by
  have h := receive_asset_fee_spec ⟨1, 2, 3, 50, 1000, 4, false, 0⟩
    (fun _ => true) 6 [] 5 ⟨1, 5, 1000000⟩ ⟨1, 6, 0⟩ 1 1000000 "eth" "0xabc"
    rfl rfl rfl rfl rfl rfl rfl (by decide) (by decide) (by decide)
    (by decide)
  have h2 := receive_asset_fee_spec ⟨1, 2, 3, 50, 1000, 4, false, 0⟩
    (fun _ => true) 6 [] 5 ⟨1, 5, 500⟩ ⟨1, 6, 0⟩ 1 500 "eth" "0xabc"
    rfl rfl rfl rfl rfl rfl rfl (by decide) (by decide) (by decide)
    (by decide)
  refine ⟨h.1.trans (by norm_num), h.2.1.mpr (by norm_num), rfl,
    h2.2.2.2 (by norm_num)⟩

/-- C1 counterexample to the claim as stated (for *every* `operation_fee`):
with `amount = 2^64 - 1`, `bps = 1000` and
`operation_fee = 2^64 - floor(amount * 1000 / 10000)`, the unchecked u64
addition in the fee computation wraps to `0`, the `fee < amount` check
passes and the deposit succeeds, even though the claimed fee
`floor(amount * bps / 10000) + operation_fee = 2^64` is not below the
amount, so the deposit should have failed with `FeeExceedsAmount`. -/
theorem receive_asset_fee_wrap_cex :
    txOk (receive_asset ⟨1, 2, 3, 1000, 16602069666338596455, 4, false, 0⟩
        (fun _ => true) 6 [] 5 ⟨1, 5, 18446744073709551615⟩ ⟨1, 6, 0⟩ 1
        18446744073709551615 "" "") = true
    ∧ ¬ (18446744073709551615 * 1000 / 10000 + 16602069666338596455
        < 18446744073709551615) := by
  exact ⟨by decide, by decide⟩

set_option maxHeartbeats 4000000 in
/-- C2 (amended): for a u64 `amount` and u16 `bps` the wide (u128)
intermediate multiplication of the fee computation can never overflow, so
the `checked_mul` always returns a value, the fee computation never reaches
the `unwrap()` panic, and `receive_asset` never fails with a panic; moreover
the program's error enum declares no `ArithmeticOverflow` variant at all, so
no deposit can fail with such a checked error — on a hypothetical overflow
the code would panic via `unwrap()` instead of returning an error. -/
theorem fee_overflow_handling
    (amount bps opFee : Nat) (ha : amount < 2 ^ 64) (hb : bps < 2 ^ 16) :
    u128CheckedMul amount bps = some (amount * bps)
    ∧ feeAmount amount bps opFee ≠ none
    ∧ (∀ (config : GlobalConfig) (configPda : Nat → Bool) (configKey : Nat)
        (requests : RequestMap) (user : Nat) (uTA bTA : TokenAccount)
        (tmKey : Nat) (chain addr : String),
        config.transfer_fee_basis_points = bps →
        config.operation_fee = opFee →
        receive_asset config configPda configKey requests user uTA bTA tmKey
          amount chain addr ≠ .error .panicked)
    ∧ (∀ e : BridgeError, bridgeErrorName e ≠ "ArithmeticOverflow") := by
  have hmul : amount * bps < 340282366920938463463374607431768211456 := by
    calc amount * bps < 2 ^ 64 * 2 ^ 16 :=
          mul_lt_mul'' ha hb (Nat.zero_le _) (Nat.zero_le _)
      _ < 340282366920938463463374607431768211456 := by norm_num
  have hsome : u128CheckedMul amount bps = some (amount * bps) := by
    simp [u128CheckedMul, hmul]
  have hfee : feeAmount amount bps opFee ≠ none := by
    simp [feeAmount, u128CheckedMul, u128CheckedDiv, u64cast, hmul]
  refine ⟨hsome, hfee, ?_, ?_⟩
  · intro config configPda configKey requests user uTA bTA tmKey chain addr
      hbps hop hcontra
    subst hbps
    subst hop
    unfold receive_asset at hcontra
    split at hcontra
    case isFalse =>
      injection hcontra with h
      exact TxError.noConfusion h
    case isTrue =>
    split at hcontra
    case isTrue =>
      injection hcontra with h
      exact TxError.noConfusion h
    case isFalse =>
    split at hcontra
    case isTrue =>
      injection hcontra with h
      exact TxError.noConfusion h
    case isFalse =>
    split at hcontra
    case isFalse =>
      injection hcontra with h
      exact TxError.noConfusion h
    case isTrue =>
    split at hcontra
    case isFalse =>
      injection hcontra with h
      exact TxError.noConfusion h
    case isTrue =>
    split at hcontra
    case isFalse =>
      injection hcontra with h
      exact TxError.noConfusion h
    case isTrue =>
    split at hcontra
    case isFalse =>
      injection hcontra with h
      exact TxError.noConfusion h
    case isTrue =>
    split at hcontra
    case isFalse =>
      injection hcontra with h
      exact TxError.noConfusion h
    case isTrue =>
    split at hcontra
    case h_1 heq => exact hfee heq
    case h_2 fee hfeq =>
    split at hcontra
    case isFalse =>
      injection hcontra with h
      exact TxError.noConfusion h
    case isTrue hlt =>
    split at hcontra
    case h_1 hsub =>
      unfold u64CheckedSub at hsub
      rw [if_pos (Nat.le_of_lt hlt)] at hsub
      exact Option.noConfusion hsub
    case h_2 a_f hsub =>
    split at hcontra
    case h_1 e htr =>
      unfold splTransfer at htr
      split at htr
      case isTrue =>
        injection htr with htr
        rw [← htr] at hcontra
        injection hcontra with h
        exact TxError.noConfusion h
      case isFalse => exact Except.noConfusion htr
    case h_2 uTA2 bTA2 htr =>
    split at hcontra
    case h_1 e hburn =>
      unfold splBurn at hburn
      split at hburn
      case isTrue =>
        injection hburn with hburn
        rw [← hburn] at hcontra
        injection hcontra with h
        exact TxError.noConfusion h
      case isFalse => exact Except.noConfusion hburn
    case h_2 bTA3 hburn =>
    dsimp only at hcontra
    split at hcontra
    case isTrue => exact Except.noConfusion hcontra
    case isFalse =>
      injection hcontra with h
      exact TxError.noConfusion h
  · intro e
    cases e <;> decide

/-- C2 witness, at the largest representable u64 amount and u16 rate. -/
theorem fee_overflow_handling_witness :
    u128CheckedMul 18446744073709551615 65535
      = some (18446744073709551615 * 65535)
    ∧ feeAmount 18446744073709551615 65535 7 ≠ none
    ∧ receive_asset ⟨1, 2, 3, 65535, 7, 4, false, 0⟩ (fun _ => true) 6 [] 5
        ⟨1, 5, 3⟩ ⟨1, 6, 0⟩ 1 18446744073709551615 "" ""
        ≠ .error .panicked
    ∧ bridgeErrorName .FeeExceedsAmount ≠ "ArithmeticOverflow" := by
  have h := fee_overflow_handling 18446744073709551615 65535 7 (by decide)
    (by decide)
  exact ⟨h.1, h.2.1, h.2.2.1 ⟨1, 2, 3, 65535, 7, 4, false, 0⟩ (fun _ => true)
    6 [] 5 ⟨1, 5, 3⟩ ⟨1, 6, 0⟩ 1 "" "" rfl rfl, h.2.2.2 .FeeExceedsAmount⟩

/-- C2 counterexample to the claim as stated: the program's declared error
taxonomy (its `BridgeError` enum, all nine variants) contains no
`ArithmeticOverflow` error, so an overflow could not be "surfaced to the
caller like the other errors of the taxonomy". -/
theorem no_arithmetic_overflow_error_code :
    (allBridgeErrors.map bridgeErrorName).contains "ArithmeticOverflow"
      = false
    ∧ allBridgeErrors.length = 9 := by decide

/-- C3: a successful `mint_asset` returns the request store untouched, so
the referenced record (and in particular its `Pending` status) is unchanged;
furthermore the success of the call does not depend on the `amount` argument
nor on the record's stored `amount` field — the two are never compared. -/
theorem mint_asset_preserves_request
    {config : GlobalConfig} {configPda : Nat → Bool}
    {statePda : ReqKey → Nat → Bool} {requests : RequestMap}
    {recipient : Nat} {rTA : TokenAccount} {tmKey caller amount : Nat}
    {chain addr : String} {out : MintOk}
    (hok : mint_asset config configPda statePda requests recipient rTA tmKey
      caller amount chain addr = .ok out) :
    out.requests = requests
    ∧ lookupReq out.requests (recipient, chain, addr)
      = lookupReq requests (recipient, chain, addr)
    ∧ (∀ amount2, txOk (mint_asset config configPda statePda requests
        recipient rTA tmKey caller amount2 chain addr) = true)
    ∧ (∀ rec rest x, requests = ((recipient, chain, addr), rec) :: rest →
        txOk (mint_asset config configPda statePda
          (((recipient, chain, addr), { rec with amount := x }) :: rest)
          recipient rTA tmKey caller amount chain addr) = true) := by
  obtain ⟨hpda, hpause, rec, hrec, hsp, hmint, hrmint, hproc, hout⟩ :=
    mint_asset_ok_elim hok
  subst hout
  refine ⟨rfl, rfl, ?_, ?_⟩
  · intro am2
    simp [mint_asset, hpda, hpause, hrec, hsp, hmint, hrmint, hproc, txOk]
  · intro rec2 rest x heq
    subst heq
    have hr2 : rec2 = rec := by
      have h2 := hrec
      simp [lookupReq] at h2
      exact h2
    subst hr2
    simp [mint_asset, hpda, hpause, lookupReq, hsp, hmint, hrmint, hproc,
      txOk]

/-- C3 witness: after a successful concrete mint of 55 against a pending
record of stored amount 100, minting 77 also succeeds, and so does minting
against the same record with its stored amount replaced by 123. -/
theorem mint_asset_preserves_request_witness :
    txOk (mint_asset ⟨1, 2, 3, 50, 1000, 4, false, 0⟩ (fun _ => true)
      (fun _ _ => true) [((9, "e", "a"), ⟨9, 100, "e", "a", .Pending, 0⟩)]
      9 ⟨1, 9, 0⟩ 1 4 77 "e" "a") = true
    ∧ txOk (mint_asset ⟨1, 2, 3, 50, 1000, 4, false, 0⟩ (fun _ => true)
      (fun _ _ => true) [((9, "e", "a"), ⟨9, 123, "e", "a", .Pending, 0⟩)]
      9 ⟨1, 9, 0⟩ 1 4 55 "e" "a") = true := by
  have h := mint_asset_preserves_request
    (show mint_asset ⟨1, 2, 3, 50, 1000, 4, false, 0⟩ (fun _ => true)
      (fun _ _ => true) [((9, "e", "a"), ⟨9, 100, "e", "a", .Pending, 0⟩)]
      9 ⟨1, 9, 0⟩ 1 4 55 "e" "a"
      = .ok ⟨[((9, "e", "a"), ⟨9, 100, "e", "a", .Pending, 0⟩)], ⟨1, 9, 55⟩,
             ⟨9, 55⟩⟩ from rfl)
  exact ⟨h.2.2.1 77, h.2.2.2 ⟨9, 100, "e", "a", .Pending, 0⟩ [] 123 rfl⟩

/-- C4: after a successful deposit, any second deposit with the same
(depositor, destination_chain, destination_address) triple fails with the
account-already-exists error of the host — whatever token accounts, mint key
or amount it supplies — and the record created by the first deposit is still
stored at the derived key; the error rolls the second transaction back, so
no balance changes. -/
theorem duplicate_deposit_rejected
    {config : GlobalConfig} {configPda : Nat → Bool} {configKey : Nat}
    {requests : RequestMap} {user : Nat} {uTA bTA : TokenAccount}
    {tmKey amount : Nat} {chain addr : String} {s : DepositOk}
    (hok : receive_asset config configPda configKey requests user uTA bTA
      tmKey amount chain addr = .ok s)
    (uTA2 bTA2 : TokenAccount) (tmKey2 amount2 : Nat) :
    receive_asset config configPda configKey s.requests user uTA2 bTA2 tmKey2
      amount2 chain addr = .error .accountAlreadyInUse
    ∧ lookupReq s.requests (user, chain, addr)
      = some { user := user, amount := amount, destination_chain := chain,
               destination_address := addr, status := .Pending,
               bump := 0 } := by
  obtain ⟨hpda, hpause, hfresh, hmint, fee, hfee, hlt, hbal, hsv⟩ :=
    receive_asset_ok_elim hok
  subst hsv
  constructor
  · simp [receive_asset, hpda, hpause, lookupReq]
  · simp [lookupReq]

/-- C4 witness: a concrete repeated deposit on the same triple fails. -/
theorem duplicate_deposit_rejected_witness :
    receive_asset ⟨1, 2, 3, 50, 1000, 4, false, 0⟩ (fun _ => true) 6
      [((5, "eth", "0xabc"), ⟨5, 1000000, "eth", "0xabc", .Pending, 0⟩)]
      5 ⟨1, 5, 500000⟩ ⟨1, 6, 6000⟩ 1 500000 "eth" "0xabc"
      = .error .accountAlreadyInUse := by
  have h := duplicate_deposit_rejected
    (show receive_asset ⟨1, 2, 3, 50, 1000, 4, false, 0⟩ (fun _ => true) 6 []
        5 ⟨1, 5, 1000000⟩ ⟨1, 6, 0⟩ 1 1000000 "eth" "0xabc"
      = .ok ⟨[((5, "eth", "0xabc"), ⟨5, 1000000, "eth", "0xabc", .Pending, 0⟩)],
             ⟨1, 5, 0⟩, ⟨1, 6, 6000⟩, ⟨5, 1000000, 994000, "eth", "0xabc"⟩⟩
      from rfl) ⟨1, 5, 500000⟩ ⟨1, 6, 6000⟩ 1 500000
  exact h.1

/-- C5: the invariant `transfer_fee_basis_points ≤ 1000` holds after each of
the two operations that write the field: for every `bps ≤ 1000` both
`initialize` and `update_transfer_fee` (called by the owner) succeed and
store `bps`, for every `bps > 1000` both fail with `FeeTooHigh` (and the
failed transaction leaves the stored configuration unchanged), and any
successful run of either operation yields a configuration satisfying the
bound. -/
theorem transfer_fee_bound_invariant
    (alreadyInit : Bool) (tm auth fr proc bps opFee : Nat)
    (config : GlobalConfig) (configPda : Nat → Bool) (caller : Nat)
    (hinit : alreadyInit = false)
    (hpda : configPda config.bump = true)
    (hown : caller = config.authority) :
    (bps ≤ 1000 →
      initializeBridge alreadyInit tm auth fr proc bps opFee
        = .ok { token_mint := tm, authority := auth, fee_recipient := fr,
                transfer_fee_basis_points := bps, operation_fee := opFee,
                offchain_processor := proc, paused := false, bump := 0 }
      ∧ update_transfer_fee config configPda caller bps
        = .ok { config with transfer_fee_basis_points := bps })
    ∧ (1000 < bps →
      initializeBridge alreadyInit tm auth fr proc bps opFee
        = .error (.bridge .FeeTooHigh)
      ∧ update_transfer_fee config configPda caller bps
        = .error (.bridge .FeeTooHigh))
    ∧ (∀ c, initializeBridge alreadyInit tm auth fr proc bps opFee = .ok c →
        c.transfer_fee_basis_points ≤ 1000)
    ∧ (∀ c, update_transfer_fee config configPda caller bps = .ok c →
        c.transfer_fee_basis_points ≤ 1000) := by
  subst hinit
  subst hown
  refine ⟨?_, ?_, ?_, ?_⟩
  · intro hb
    exact ⟨by simp [initializeBridge, hb],
      by simp [update_transfer_fee, updateConfigGuard, hpda, hb]⟩
  · intro hb
    have hb2 : ¬ bps ≤ 1000 := by omega
    exact ⟨by simp [initializeBridge, hb2],
      by simp [update_transfer_fee, updateConfigGuard, hpda, hb2]⟩
  · intro c hc
    by_cases hb : bps ≤ 1000
    · have he : initializeBridge false tm auth fr proc bps opFee
          = .ok { token_mint := tm, authority := auth, fee_recipient := fr,
                  transfer_fee_basis_points := bps, operation_fee := opFee,
                  offchain_processor := proc, paused := false, bump := 0 } :=
        by simp [initializeBridge, hb]
      rw [he] at hc
      injection hc with hc
      rw [← hc]
      exact hb
    · have he : initializeBridge false tm auth fr proc bps opFee
          = .error (.bridge .FeeTooHigh) := by simp [initializeBridge, hb]
      rw [he] at hc
      exact Except.noConfusion hc
  · intro c hc
    by_cases hb : bps ≤ 1000
    · have he : update_transfer_fee config configPda config.authority bps
          = .ok { config with transfer_fee_basis_points := bps } :=
        by simp [update_transfer_fee, updateConfigGuard, hpda, hb]
      rw [he] at hc
      injection hc with hc
      rw [← hc]
      exact hb
    · have he : update_transfer_fee config configPda config.authority bps
          = .error (.bridge .FeeTooHigh) :=
        by simp [update_transfer_fee, updateConfigGuard, hpda, hb]
      rw [he] at hc
      exact Except.noConfusion hc

/-- C5 witness at `bps = 1000` (accepted) and `bps = 1001` (rejected). -/
theorem transfer_fee_bound_invariant_witness :
    update_transfer_fee ⟨1, 2, 3, 50, 7, 4, false, 0⟩ (fun _ => true) 2 1000
      = .ok ⟨1, 2, 3, 1000, 7, 4, false, 0⟩
    ∧ update_transfer_fee ⟨1, 2, 3, 50, 7, 4, false, 0⟩ (fun _ => true) 2
        1001 = .error (.bridge .FeeTooHigh)
    ∧ initializeBridge false 1 2 3 4 1001 7
      = .error (.bridge .FeeTooHigh) := by
  have h1 := transfer_fee_bound_invariant false 1 2 3 4 1000 7
    ⟨1, 2, 3, 50, 7, 4, false, 0⟩ (fun _ => true) 2 rfl rfl rfl
  have h2 := transfer_fee_bound_invariant false 1 2 3 4 1001 7
    ⟨1, 2, 3, 50, 7, 4, false, 0⟩ (fun _ => true) 2 rfl rfl rfl
  exact ⟨(h1.1 (by norm_num)).2, (h2.2.1 (by norm_num)).2,
    (h2.2.1 (by norm_num)).1⟩

/-- C6: with a matching config PDA, `mint_asset` fails with `BridgePaused`
whenever the bridge is paused, regardless of the caller; with the bridge not
paused and a valid stored record (and matching mints), a caller other than
the configured offchain processor fails with `OnlyOffchainProcessor`; and
every successful call implies the bridge was not paused and the caller was
the configured processor. -/
theorem mint_asset_access_control
    (config : GlobalConfig) (configPda : Nat → Bool)
    (statePda : ReqKey → Nat → Bool) (requests : RequestMap)
    (recipient : Nat) (rTA : TokenAccount) (tmKey caller amount : Nat)
    (chain addr : String)
    (hpda : configPda config.bump = true) :
    (config.paused = true →
      mint_asset config configPda statePda requests recipient rTA tmKey
        caller amount chain addr = .error (.bridge .BridgePaused))
    ∧ (∀ rec, config.paused = false →
        lookupReq requests (recipient, chain, addr) = some rec →
        statePda (recipient, chain, addr) rec.bump = true →
        tmKey = config.token_mint → rTA.mint = config.token_mint →
        ¬ caller = config.offchain_processor →
        mint_asset config configPda statePda requests recipient rTA tmKey
          caller amount chain addr
          = .error (.bridge .OnlyOffchainProcessor))
    ∧ (∀ out, mint_asset config configPda statePda requests recipient rTA
        tmKey caller amount chain addr = .ok out →
        config.paused = false ∧ caller = config.offchain_processor) := by
  refine ⟨?_, ?_, ?_⟩
  · intro hp
    simp [mint_asset, hpda, hp]
  · intro rec hp hrec hsp hmint hrmint hproc
    simp [mint_asset, hpda, hp, hrec, hsp, hmint, hrmint, hproc]
  · intro out hok
    obtain ⟨_, hp, _, _, _, _, _, hproc, _⟩ := mint_asset_ok_elim hok
    exact ⟨hp, hproc⟩

/-- C6 witness: a paused mint fails with `BridgePaused` for a non-processor
caller, and the same unpaused call fails with `OnlyOffchainProcessor` even
though a valid record exists. -/
theorem mint_asset_access_control_witness :
    mint_asset ⟨1, 2, 3, 50, 1000, 4, true, 0⟩ (fun _ => true)
      (fun _ _ => true) [((9, "e", "a"), ⟨9, 100, "e", "a", .Pending, 0⟩)]
      9 ⟨1, 9, 0⟩ 1 8 55 "e" "a" = .error (.bridge .BridgePaused)
    ∧ mint_asset ⟨1, 2, 3, 50, 1000, 4, false, 0⟩ (fun _ => true)
      (fun _ _ => true) [((9, "e", "a"), ⟨9, 100, "e", "a", .Pending, 0⟩)]
      9 ⟨1, 9, 0⟩ 1 8 55 "e" "a"
      = .error (.bridge .OnlyOffchainProcessor) := by
  have h1 := mint_asset_access_control ⟨1, 2, 3, 50, 1000, 4, true, 0⟩
    (fun _ => true) (fun _ _ => true)
    [((9, "e", "a"), ⟨9, 100, "e", "a", .Pending, 0⟩)] 9 ⟨1, 9, 0⟩ 1 8 55
    "e" "a" rfl
  have h2 := mint_asset_access_control ⟨1, 2, 3, 50, 1000, 4, false, 0⟩
    (fun _ => true) (fun _ _ => true)
    [((9, "e", "a"), ⟨9, 100, "e", "a", .Pending, 0⟩)] 9 ⟨1, 9, 0⟩ 1 8 55
    "e" "a" rfl
  exact ⟨h1.1 rfl, h2.2.1 ⟨9, 100, "e", "a", .Pending, 0⟩ rfl (by decide)
    rfl rfl rfl (by decide)⟩

/-- C7: every successful deposit moves the full `amount` out of the
depositor's token account, leaves the custody account with exactly the fee
added (the full amount was transferred in and `amount - fee` burned), and
emits the event carrying the depositor, the original amount,
`amount_after_fee = amount - fee`, and the destination chain and address. -/
theorem deposit_balance_accounting
    {config : GlobalConfig} {configPda : Nat → Bool} {configKey : Nat}
    {requests : RequestMap} {user : Nat} {uTA bTA : TokenAccount}
    {tmKey amount : Nat} {chain addr : String} {s : DepositOk}
    (hok : receive_asset config configPda configKey requests user uTA bTA
      tmKey amount chain addr = .ok s) :
    ∃ fee,
      feeAmount amount config.transfer_fee_basis_points config.operation_fee
        = some fee
      ∧ fee < amount ∧ amount ≤ uTA.amount
      ∧ s.userTokenAccount.amount = uTA.amount - amount
      ∧ s.bridgeTokenAccount.amount = bTA.amount + fee
      ∧ s.event = { user := user, amount := amount,
                    amount_after_fee := amount - fee,
                    destination_chain := chain,
                    destination_address := addr } := by
  obtain ⟨hpda, hpause, hfresh, hmint, fee, hfee, hlt, hbal, hsv⟩ :=
    receive_asset_ok_elim hok
  subst hsv
  exact ⟨fee, hfee, hlt, hbal, rfl, by dsimp; omega, rfl⟩

/-- C7 witness: the concrete deposit of 1,000,000 at 50 bps and operation
fee 1,000 leaves the depositor with 0, custody with 6,000 and emits
`amount_after_fee = 994,000`. -/
theorem deposit_balance_accounting_witness :
    (receive_asset ⟨1, 2, 3, 50, 1000, 4, false, 0⟩ (fun _ => true) 6 [] 5
        ⟨1, 5, 1000000⟩ ⟨1, 6, 0⟩ 1 1000000 "eth" "0xabc").map
      (fun s => (s.userTokenAccount.amount, s.bridgeTokenAccount.amount,
        s.event.amount_after_fee)) = .ok (0, 0 + 6000, 994000) := by
  obtain ⟨fee, hfee, hlt, hbal, h1, h2, h3⟩ := deposit_balance_accounting
    (show receive_asset ⟨1, 2, 3, 50, 1000, 4, false, 0⟩ (fun _ => true) 6 []
        5 ⟨1, 5, 1000000⟩ ⟨1, 6, 0⟩ 1 1000000 "eth" "0xabc"
      = .ok ⟨[((5, "eth", "0xabc"), ⟨5, 1000000, "eth", "0xabc", .Pending, 0⟩)],
             ⟨1, 5, 0⟩, ⟨1, 6, 6000⟩, ⟨5, 1000000, 994000, "eth", "0xabc"⟩⟩
      from rfl)
  rw [show receive_asset ⟨1, 2, 3, 50, 1000, 4, false, 0⟩ (fun _ => true) 6 []
        5 ⟨1, 5, 1000000⟩ ⟨1, 6, 0⟩ 1 1000000 "eth" "0xabc"
      = .ok ⟨[((5, "eth", "0xabc"), ⟨5, 1000000, "eth", "0xabc", .Pending, 0⟩)],
             ⟨1, 5, 0⟩, ⟨1, 6, 6000⟩, ⟨5, 1000000, 994000, "eth", "0xabc"⟩⟩
      from rfl]
  simp [Except.map]

/-- C8: every successful `withdraw_fees` leaves the custody token account
with a zero balance and credits the fee recipient's token account with
exactly the custody account's entire previous balance; the instruction takes
no amount argument, so no partial withdrawal is possible. -/
theorem withdraw_fees_sweeps_entire_balance
    {config : GlobalConfig} {configPda : Nat → Bool}
    {configKey authority : Nat} {bTA fTA : TokenAccount} {out : WithdrawOk}
    (hok : withdraw_fees config configPda configKey authority bTA fTA
      = .ok out) :
    out.bridgeTokenAccount = { bTA with amount := 0 }
    ∧ out.feeRecipientTokenAccount
      = { fTA with amount := fTA.amount + bTA.amount } := by
  unfold withdraw_fees at hok
  split at hok
  case isFalse => exact Except.noConfusion hok
  case isTrue hpda =>
  split at hok
  case isFalse => exact Except.noConfusion hok
  case isTrue hown =>
  split at hok
  case isFalse => exact Except.noConfusion hok
  case isTrue hbmint =>
  split at hok
  case isFalse => exact Except.noConfusion hok
  case isTrue hbown =>
  split at hok
  case isFalse => exact Except.noConfusion hok
  case isTrue hfmint =>
  split at hok
  case isFalse => exact Except.noConfusion hok
  case isTrue hfown =>
  split at hok
  case h_1 e htr => exact Except.noConfusion hok
  case h_2 bta fta htr =>
  unfold splTransfer at htr
  rw [if_neg (lt_irrefl bTA.amount)] at htr
  injection htr with htr
  injection htr with h1 h2
  injection hok with hok
  subst hok
  subst h1
  subst h2
  constructor
  · show ({ bTA with amount := bTA.amount - bTA.amount } : TokenAccount) = _
    rw [Nat.sub_self]
  · rfl

/-- C8 witness: sweeping a custody balance of 777 into a recipient balance
of 5 leaves custody at 0 and the recipient at 5 + 777. -/
theorem withdraw_fees_sweeps_entire_balance_witness :
    withdraw_fees ⟨1, 2, 3, 50, 1000, 4, false, 0⟩ (fun _ => true) 6 2
      ⟨1, 6, 777⟩ ⟨1, 3, 5⟩ = .ok ⟨⟨1, 6, 0⟩, ⟨1, 3, 782⟩⟩
    ∧ (⟨⟨1, 6, 0⟩, ⟨1, 3, 782⟩⟩ : WithdrawOk).bridgeTokenAccount
      = ⟨1, 6, 0⟩
    ∧ (⟨⟨1, 6, 0⟩, ⟨1, 3, 782⟩⟩ : WithdrawOk).feeRecipientTokenAccount
      = ⟨1, 3, 5 + 777⟩ := by
  have h := withdraw_fees_sweeps_entire_balance
    (show withdraw_fees ⟨1, 2, 3, 50, 1000, 4, false, 0⟩ (fun _ => true) 6 2
      ⟨1, 6, 777⟩ ⟨1, 3, 5⟩ = .ok ⟨⟨1, 6, 0⟩, ⟨1, 3, 782⟩⟩ from rfl)
  exact ⟨rfl, h.1, h.2⟩

/-- C9: the record created by a successful deposit carries exactly the five
assigned fields and the zero-initialized default `bump = 0` (the handler
never writes `bump`), and a later `mint_asset` re-derives and verifies the
record's address with that stored bump: whenever the host's address
comparison rejects bump 0 for these seeds, the mint fails with the seeds
constraint error. -/
theorem deposit_record_bump_zero
    {config : GlobalConfig} {configPda : Nat → Bool} {configKey : Nat}
    {requests : RequestMap} {user : Nat} {uTA bTA : TokenAccount}
    {tmKey amount : Nat} {chain addr : String} {s : DepositOk}
    (hok : receive_asset config configPda configKey requests user uTA bTA
      tmKey amount chain addr = .ok s) :
    lookupReq s.requests (user, chain, addr)
      = some { user := user, amount := amount, destination_chain := chain,
               destination_address := addr, status := .Pending, bump := 0 }
    ∧ (∀ (statePda : ReqKey → Nat → Bool) (rTA : TokenAccount)
        (tmKey2 caller amount2 : Nat),
        statePda (user, chain, addr) 0 = false →
        mint_asset config configPda statePda s.requests user rTA tmKey2
          caller amount2 chain addr = .error .constraintSeeds) := by
  obtain ⟨hpda, hpause, hfresh, hmint, fee, hfee, hlt, hbal, hsv⟩ :=
    receive_asset_ok_elim hok
  subst hsv
  refine ⟨by simp [lookupReq], ?_⟩
  intro sp rTA tk ca am hsp
  simp [mint_asset, hpda, hpause, lookupReq, hsp]

/-- C9 witness: the concrete deposited record has `bump = 0`, and a mint
whose address comparison rejects bump 0 fails with the seeds error. -/
theorem deposit_record_bump_zero_witness :
    lookupReq [((5, "eth", "0xabc"),
        ⟨5, 1000000, "eth", "0xabc", .Pending, 0⟩)] (5, "eth", "0xabc")
      = some ⟨5, 1000000, "eth", "0xabc", .Pending, 0⟩
    ∧ mint_asset ⟨1, 2, 3, 50, 1000, 4, false, 0⟩ (fun _ => true)
        (fun _ _ => false)
        [((5, "eth", "0xabc"), ⟨5, 1000000, "eth", "0xabc", .Pending, 0⟩)]
        5 ⟨1, 5, 0⟩ 1 4 994000 "eth" "0xabc" = .error .constraintSeeds := by
  have h := deposit_record_bump_zero
    (show receive_asset ⟨1, 2, 3, 50, 1000, 4, false, 0⟩ (fun _ => true) 6 []
        5 ⟨1, 5, 1000000⟩ ⟨1, 6, 0⟩ 1 1000000 "eth" "0xabc"
      = .ok ⟨[((5, "eth", "0xabc"), ⟨5, 1000000, "eth", "0xabc", .Pending, 0⟩)],
             ⟨1, 5, 0⟩, ⟨1, 6, 6000⟩, ⟨5, 1000000, 994000, "eth", "0xabc"⟩⟩
      from rfl)
  exact ⟨h.1, h.2 (fun _ _ => false) ⟨1, 5, 0⟩ 1 4 994000 rfl⟩

/-- C10 (amended): a deposit with `amount = 0` never succeeds under any
configuration or accounts — the computed fee `operation_fee` can never be
strictly below 0 — and whenever it passes the account-level checks (bridge
not paused, no existing record, valid accounts, destination length in
bounds) it fails precisely with `FeeExceedsAmount`, even though the code
contains no explicit zero-amount check.  Under a paused configuration the
failure is `BridgePaused` instead: see the counterexample. -/
theorem zero_amount_deposit_rejected
    (config : GlobalConfig) (configPda : Nat → Bool) (configKey : Nat)
    (requests : RequestMap) (user : Nat) (uTA bTA : TokenAccount)
    (tmKey : Nat) (chain addr : String) :
    txOk (receive_asset config configPda configKey requests user uTA bTA
      tmKey 0 chain addr) = false
    ∧ (configPda config.bump = true → config.paused = false →
       lookupReq requests (user, chain, addr) = none →
       tmKey = config.token_mint → uTA.mint = config.token_mint →
       bTA.mint = config.token_mint → bTA.owner = configKey →
       chain.utf8ByteSize ≤ 64 →
       receive_asset config configPda configKey requests user uTA bTA tmKey
         0 chain addr = .error (.bridge .FeeExceedsAmount)) := by
  constructor
  · cases hres : receive_asset config configPda configKey requests user uTA
        bTA tmKey 0 chain addr with
    | error e => rfl
    | ok s =>
      obtain ⟨_, _, _, _, fee, _, hlt, _, _⟩ := receive_asset_ok_elim hres
      exact absurd hlt (Nat.not_lt_zero fee)
  · intro hpda hpause hfresh hmint humint hbmint hbown hchain
    simp [receive_asset, hpda, hpause, hfresh, hmint, humint, hbmint, hbown,
      BridgeState.MAX_DESTINATION_LEN, hchain, feeAmount, u128CheckedMul,
      u128CheckedDiv, u64cast]

/-- C10 witness: a concrete zero-amount deposit on a valid, unpaused
configuration fails with `FeeExceedsAmount`. -/
theorem zero_amount_deposit_rejected_witness :
    txOk (receive_asset ⟨1, 2, 3, 50, 1000, 4, false, 0⟩ (fun _ => true) 6 []
      5 ⟨1, 5, 77⟩ ⟨1, 6, 0⟩ 1 0 "eth" "0xabc") = false
    ∧ receive_asset ⟨1, 2, 3, 50, 1000, 4, false, 0⟩ (fun _ => true) 6 []
      5 ⟨1, 5, 77⟩ ⟨1, 6, 0⟩ 1 0 "eth" "0xabc"
        = .error (.bridge .FeeExceedsAmount) := by
  have h := zero_amount_deposit_rejected ⟨1, 2, 3, 50, 1000, 4, false, 0⟩
    (fun _ => true) 6 [] 5 ⟨1, 5, 77⟩ ⟨1, 6, 0⟩ 1 "eth" "0xabc"
  exact ⟨h.1, h.2 rfl rfl rfl rfl rfl rfl rfl (by decide)⟩

/-- C10 counterexample to the claim as stated (for *every* configuration):
under a paused configuration the zero-amount deposit fails with
`BridgePaused`, not `FeeExceedsAmount`, because the pause constraint is
checked during account validation, before the fee check. -/
theorem zero_amount_deposit_paused_cex :
    receive_asset ⟨1, 2, 3, 50, 1000, 4, true, 0⟩ (fun _ => true) 6 [] 5
      ⟨1, 5, 77⟩ ⟨1, 6, 0⟩ 1 0 "eth" "0xabc"
      = .error (.bridge .BridgePaused) := rfl

end Bridge
